import Mathlib

/-!
Verification of the `Client` class of devclub-iitd/sendata (the WebTorrent
session coordinator in `src/unnamed/part_000`).

The TypeScript source is shallowly embedded: each socket/torrent event
handler becomes a pure step function from an explicit session state and the
event (carrying the torrent counters read at event time) to the new state
and the ordered list of notifications emitted (`this.emit` / `socket.emit`
calls).  Progress fractions are modelled as rationals, so "exactly 1.0" is
the exact rational 1.
-/

namespace Sendata

/-! ## File-selection controller (`selectFiles`, source lines 127-144) -/

/-- One file of the active torrent, as seen by the selection controller:
its name and whether its pieces are currently selected for download. -/
@[ext]
structure SelFile where
  name : String
  selected : Bool
  deriving DecidableEq, Repr

/-- The slice of a torrent handle that `selectFiles` touches: the number of
pieces (`torrent.pieces.length`) and the ordered file list. -/
@[ext]
structure SelTorrent where
  pieces : Nat
  files : List SelFile
  deriving DecidableEq, Repr

/-- A directive issued to the swarm handle by `selectFiles`:
`torrent.deselect(start, stop, priority)` over a piece range, or
`file.select()` / `file.deselect()` on the file at a given index. -/
inductive SelDirective where
  | deselectRange (start stop priority : Nat)
  | select (i : Nat)
  | deselect (i : Nat)
  deriving DecidableEq, Repr

/-- The ordered list of directives `selectFiles(fileSelections)` issues to
the swarm handle (source lines 129-143): nothing on a length mismatch
(the call is only debug-logged and ignored); otherwise
`torrent.deselect(0, torrent.pieces.length - 1, 0)` followed by, for each
index `i` in order, `file.select()` when `fileSelections[i]` is true and
`file.deselect()` when it is false. -/
def selectFilesOps (t : SelTorrent) (fileSelections : List Bool) : List SelDirective :=
  if fileSelections.length ≠ t.files.length then []
  else
    SelDirective.deselectRange 0 (t.pieces - 1) 0 ::
      (List.range t.files.length).map
        (fun i => if fileSelections.getD i false then SelDirective.select i
                  else SelDirective.deselect i)

/-- Replace the `selected` flag of the file at index `i`, leaving every
other file untouched (the effect of `file.select()` / `file.deselect()`
on the per-file selection state). Out-of-range indices change nothing. -/
def setSelected : List SelFile → Nat → Bool → List SelFile
  | [], _, _ => []
  | f :: fs, 0, b => { f with selected := b } :: fs
  | f :: fs, Nat.succ i, b => f :: setSelected fs i b

/-- Effect of `torrent.deselect(0, torrent.pieces.length - 1, 0)` on the
per-file selection state: the full piece range is deselected, clearing the
selection of every file. -/
def clearAll (files : List SelFile) : List SelFile :=
  files.map (fun f => { f with selected := false })

/-- Interpret one directive on the torrent's selection state. -/
def applyDirective (t : SelTorrent) : SelDirective → SelTorrent
  | SelDirective.deselectRange _ _ _ => { t with files := clearAll t.files }
  | SelDirective.select i => { t with files := setSelected t.files i true }
  | SelDirective.deselect i => { t with files := setSelected t.files i false }

/-- The net effect of one `selectFiles(fileSelections)` call on the active
torrent: run every directive the call issues, in order. -/
def selectFilesRun (t : SelTorrent) (fileSelections : List Bool) : SelTorrent :=
  (selectFilesOps t fileSelections).foldl applyDirective t

/-- The `selectFiles` method as called on the client: it dereferences
`this.client.torrents[0]` first (source line 128); with no active torrent
that is `undefined` and reading `.files` of it throws a TypeError, modelled
as `Except.error`. -/
def selectFiles (torrents : List SelTorrent) (fileSelections : List Bool) :
    Except String (List SelTorrent) :=
  match torrents with
  | [] => Except.error "TypeError: torrents[0] is undefined"
  | t :: rest => Except.ok (selectFilesRun t fileSelections :: rest)

theorem setSelected_length (fs : List SelFile) (i : Nat) (b : Bool) :
    (setSelected fs i b).length = fs.length := by
  induction fs generalizing i with
  | nil => rfl
  | cons f fs ih =>
    cases i with
    | zero => simp [setSelected]
    | succ i => simp [setSelected, ih]

theorem setSelected_getElem? (fs : List SelFile) (i : Nat) (b : Bool) (j : Nat) :
    (setSelected fs i b)[j]? =
      if j = i then (fs[j]?).map (fun f => { f with selected := b })
      else fs[j]? := by
  induction fs generalizing i j with
  | nil => simp [setSelected]
  | cons f fs ih =>
    cases i with
    | zero =>
      cases j with
      | zero => simp [setSelected]
      | succ j => simp [setSelected]
    | succ i =>
      cases j with
      | zero => simp [setSelected]
      | succ j =>
        simp only [setSelected, List.getElem?_cons_succ, ih]
        by_cases h : j = i <;> simp [h]

theorem clearAll_getElem? (fs : List SelFile) (j : Nat) :
    (clearAll fs)[j]? = (fs[j]?).map (fun f => { f with selected := false }) := by
  simp [clearAll]

theorem applyDirective_pieces (t : SelTorrent) (d : SelDirective) :
    (applyDirective t d).pieces = t.pieces := by
  cases d <;> rfl

theorem applyDirective_files_length (t : SelTorrent) (d : SelDirective) :
    (applyDirective t d).files.length = t.files.length := by
  cases d <;> simp [applyDirective, clearAll, setSelected_length]

theorem foldl_applyDirective_pieces (ds : List SelDirective) (t : SelTorrent) :
    (ds.foldl applyDirective t).pieces = t.pieces := by
  induction ds generalizing t with
  | nil => rfl
  | cons d ds ih => simp [List.foldl, ih, applyDirective_pieces]

theorem foldl_applyDirective_files_length (ds : List SelDirective) (t : SelTorrent) :
    (ds.foldl applyDirective t).files.length = t.files.length := by
  induction ds generalizing t with
  | nil => rfl
  | cons d ds ih => simp [List.foldl, ih, applyDirective_files_length]

theorem selectFilesRun_pieces (t : SelTorrent) (sel : List Bool) :
    (selectFilesRun t sel).pieces = t.pieces :=
  foldl_applyDirective_pieces _ t

theorem selectFilesRun_files_length (t : SelTorrent) (sel : List Bool) :
    (selectFilesRun t sel).files.length = t.files.length :=
  foldl_applyDirective_files_length _ t

/-- Applying the per-index select/deselect directive for `i` is writing
`sel.getD i false` into the selection flag of file `i`. -/
theorem applyDirective_dir (t : SelTorrent) (sel : List Bool) (i : Nat) :
    applyDirective t
        (if sel.getD i false then SelDirective.select i else SelDirective.deselect i) =
      { t with files := setSelected t.files i (sel.getD i false) } := by
  cases h : sel.getD i false <;> rfl

/-- Pointwise effect of folding the per-index directives for the indices in
`idxs`: file `j` ends selected according to `sel` when `j` occurs in
`idxs`, and is untouched otherwise. -/
theorem foldl_dirs_files_getElem? (sel : List Bool) (idxs : List Nat) (t : SelTorrent) (j : Nat) :
    ((idxs.map (fun i => if sel.getD i false then SelDirective.select i
                         else SelDirective.deselect i)).foldl applyDirective t).files[j]? =
      if j ∈ idxs then (t.files[j]?).map (fun f => { f with selected := sel.getD j false })
      else t.files[j]? := by
  induction idxs generalizing t with
  | nil => simp
  | cons i is ih =>
    simp only [List.map_cons, List.foldl_cons, applyDirective_dir, ih]
    by_cases hji : j = i
    · subst hji
      by_cases hjs : j ∈ is <;>
        simp only [hjs, List.mem_cons, true_or, or_true, if_true, if_pos,
          setSelected_getElem?, if_pos rfl] <;>
        cases t.files[j]? <;> simp
    · by_cases hjs : j ∈ is <;>
        simp [hjs, hji, setSelected_getElem?, List.mem_cons]

/-- Closed form of one valid `selectFiles` call on the file list: after the
full-range deselect and the per-index directives, file `j` carries exactly
the `j`-th requested flag (and its name is untouched). -/
theorem selectFilesRun_files_getElem? (t : SelTorrent) (sel : List Bool)
    (h : sel.length = t.files.length) (j : Nat) :
    (selectFilesRun t sel).files[j]? =
      (t.files[j]?).map (fun f => { f with selected := sel.getD j false }) := by
  unfold selectFilesRun selectFilesOps
  rw [if_neg (by simp [h])]
  simp only [List.foldl_cons]
  have hclear : applyDirective t (SelDirective.deselectRange 0 (t.pieces - 1) 0) =
      { t with files := clearAll t.files } := rfl
  rw [hclear, foldl_dirs_files_getElem?]
  by_cases hj : j < t.files.length
  · simp only [List.mem_range, hj, if_pos, clearAll_getElem?]
    cases t.files[j]? <;> simp
  · have hnone : t.files[j]? = none := List.getElem?_eq_none (Nat.le_of_not_lt hj)
    simp [List.mem_range, hj, clearAll_getElem?, hnone]

/-- C5: with an active torrent, a selection vector whose length differs
from the file count is rejected and changes nothing: `selectFiles` issues
no directive to the swarm handle, and the torrent's files (names and
selected/deselected flags alike) are exactly as before. -/
theorem selectFiles_length_mismatch_noop (t : SelTorrent) (fileSelections : List Bool)
    (h : fileSelections.length ≠ t.files.length) :
    selectFilesOps t fileSelections = [] ∧ selectFilesRun t fileSelections = t := by
  have hops : selectFilesOps t fileSelections = [] := by
    unfold selectFilesOps
    rw [if_pos h]
  exact ⟨hops, by unfold selectFilesRun; rw [hops]; rfl⟩

theorem selectFiles_length_mismatch_noop_witness :
    ([true, false].length ≠ ([⟨"a.txt", true⟩] : List SelFile).length) ∧
      (selectFilesOps ⟨7, [⟨"a.txt", true⟩]⟩ [true, false] = [] ∧
        selectFilesRun ⟨7, [⟨"a.txt", true⟩]⟩ [true, false] = ⟨7, [⟨"a.txt", true⟩]⟩) :=
  ⟨by decide, selectFiles_length_mismatch_noop ⟨7, [⟨"a.txt", true⟩]⟩ [true, false] (by decide)⟩

/-- C6: on a selection vector of the right length, `selectFiles` first
clears all existing selection state (deselecting the full piece range
`0 .. pieces.length - 1` at priority 0) and then, for each index `i` in
order, issues `select()` on file `i` when the vector's `i`-th boolean is
true and `deselect()` when it is false. -/
theorem selectFiles_valid_directives (t : SelTorrent) (fileSelections : List Bool)
    (h : fileSelections.length = t.files.length) :
    (selectFilesOps t fileSelections).head? =
        some (SelDirective.deselectRange 0 (t.pieces - 1) 0) ∧
      (selectFilesOps t fileSelections).tail.length = t.files.length ∧
      ∀ i, i < t.files.length →
        (selectFilesOps t fileSelections).tail[i]? =
          some (if fileSelections.getD i false then SelDirective.select i
                else SelDirective.deselect i) := by
  unfold selectFilesOps
  rw [if_neg (by simp [h])]
  refine ⟨rfl, by simp, ?_⟩
  intro i hi
  simp [List.getElem?_range hi]

theorem selectFiles_valid_directives_witness :
    ([true, false].length = ([⟨"a", true⟩, ⟨"b", false⟩] : List SelFile).length) ∧
      ((selectFilesOps ⟨5, [⟨"a", true⟩, ⟨"b", false⟩]⟩ [true, false]).head? =
          some (SelDirective.deselectRange 0 4 0) ∧
        (selectFilesOps ⟨5, [⟨"a", true⟩, ⟨"b", false⟩]⟩ [true, false]).tail.length = 2 ∧
        ∀ i, i < ([⟨"a", true⟩, ⟨"b", false⟩] : List SelFile).length →
          (selectFilesOps ⟨5, [⟨"a", true⟩, ⟨"b", false⟩]⟩ [true, false]).tail[i]? =
            some (if [true, false].getD i false then SelDirective.select i
                  else SelDirective.deselect i)) :=
  ⟨by decide,
    selectFiles_valid_directives ⟨5, [⟨"a", true⟩, ⟨"b", false⟩]⟩ [true, false] (by decide)⟩

/-- C7: applying the same valid selection vector twice in succession
leaves the torrent's per-file selected/deselected state (indeed the whole
selection-relevant torrent state) identical to applying it once. -/
theorem selectFiles_idempotent (t : SelTorrent) (fileSelections : List Bool)
    (h : fileSelections.length = t.files.length) :
    selectFilesRun (selectFilesRun t fileSelections) fileSelections =
      selectFilesRun t fileSelections := by
  have h2 : fileSelections.length = (selectFilesRun t fileSelections).files.length := by
    rw [selectFilesRun_files_length]
    exact h
  apply SelTorrent.ext
  · rw [selectFilesRun_pieces]
  · apply List.ext_getElem?
    intro j
    rw [selectFilesRun_files_getElem? _ _ h2, selectFilesRun_files_getElem? _ _ h]
    cases t.files[j]? <;> simp

theorem selectFiles_idempotent_witness :
    ([true, false, true].length = ([⟨"a", true⟩, ⟨"b", true⟩, ⟨"c", false⟩] : List SelFile).length) ∧
      selectFilesRun (selectFilesRun ⟨9, [⟨"a", true⟩, ⟨"b", true⟩, ⟨"c", false⟩]⟩
          [true, false, true]) [true, false, true] =
        selectFilesRun ⟨9, [⟨"a", true⟩, ⟨"b", true⟩, ⟨"c", false⟩]⟩ [true, false, true] :=
  ⟨by decide,
    selectFiles_idempotent ⟨9, [⟨"a", true⟩, ⟨"b", true⟩, ⟨"c", false⟩]⟩ [true, false, true]
      (by decide)⟩

/-- C10: `selectFiles` presupposes an active torrent: with an empty torrent
list, `this.client.torrents[0]` is undefined and reading `.files` of it
throws (modelled as `Except.error`), for every selection vector; with at
least one torrent the call returns normally. -/
theorem selectFiles_no_torrent_throws (fileSelections : List Bool) :
    selectFiles [] fileSelections = Except.error "TypeError: torrents[0] is undefined" ∧
      ∀ t rest, selectFiles (t :: rest) fileSelections =
        Except.ok (selectFilesRun t fileSelections :: rest) :=
  ⟨rfl, fun _ _ => rfl⟩

/-! ## The downloading session (`addTorrent`, source lines 150-228)

`addTorrent` registers handlers on the torrent handle for `metadata`,
`ready` and (inside `ready`) `done`, starts a `setInterval` sampler inside
`ready`, and — notably — never calls `setTorrentErrorHandlers`, so a
torrent `error` event in a downloading session triggers no handler in this
class, and the interval is cleared only by the `done` handler. -/

/-- One file of the torrent handle as read by the download handlers:
`file.name`, the per-file `file.progress` counter, and whether the file is
currently selected for download. -/
structure FileView where
  name : String
  progress : ℚ
  selected : Bool
  deriving DecidableEq, Repr

/-- The aggregate counters of the torrent handle read by the handlers at
event time: `torrent.progress`, `torrent.downloadSpeed`,
`torrent.downloaded`, `torrent.timeRemaining` and `torrent.files`. -/
structure TorrentView where
  progress : ℚ
  downloadSpeed : Nat
  downloaded : Nat
  timeRemaining : Nat
  files : List FileView
  deriving DecidableEq, Repr

/-- Payload of the local `download` event (`onDownload`, source lines
170-176): speed/bytes counters, overall fraction, the per-file fraction
array just refreshed, and the remaining time. -/
structure DownloadInfo where
  downloadSpeed : Nat
  downloaded : Nat
  progress : ℚ
  progressFiles : List ℚ
  timeRemaining : Nat
  deriving DecidableEq, Repr

/-- Payload of the outbound `progressUpdate` socket message (`sendProgress`,
source lines 206-212).  `progressFiles` is the captured variable at send
time, which may still be `undefined` (`none`). -/
structure ProgressMsg where
  progress : ℚ
  progressFiles : Option (List ℚ)
  timeRemaining : Nat
  deriving DecidableEq, Repr

/-- A notification emitted during a downloading session: local `this.emit`
events and outbound `socket.emit` messages, in program order.  `error`,
`torrentDestroyed` and `clientDestroyed` are part of the class's event
vocabulary (doc comment, source lines 12-36); whether any handler of the
downloading session ever emits them is exactly what is at issue below. -/
inductive DlOutput where
  | downloading
  | download (info : DownloadInfo)
  | sockProgressUpdate (msg : ProgressMsg)
  | sockDownloadComplete
  | downloadComplete
  | fileDownloadComplete (index : Nat) (url : String)
  | error (msg : String)
  | torrentDestroyed
  | clientDestroyed
  deriving DecidableEq, Repr

/-- Result of one `file.getBlobURL` callback (source lines 191-202):
a truthy `err`, an `undefined` url, or a blob URL. -/
inductive BlobResult where
  | failure (err : String)
  | undefinedUrl
  | ok (url : String)
  deriving DecidableEq, Repr

/-- An event delivered to the downloading session's handlers, carrying the
torrent counters as read at that moment: the `client.add` callback, the
torrent's `metadata`, `ready` (with the eventual per-file `getBlobURL`
results), one `setInterval` firing, `done`, and a fatal torrent `error`. -/
inductive DlEvent where
  | added
  | metadata (view : TorrentView)
  | ready (view : TorrentView) (blobs : List BlobResult)
  | tick (view : TorrentView)
  | done (view : TorrentView)
  | torrentError (msg : String)
  deriving DecidableEq, Repr

/-- Mutable state captured by the `addTorrent` closures: `this.fileNames`,
the `progressFiles` array (`undefined` until first written), whether the
`ready` handler has run (it registers the `done` listener and starts the
interval), and whether the `setInterval` sampler is currently active. -/
structure DlState where
  fileNames : Option (List String)
  progressFiles : Option (List ℚ)
  readyFired : Bool
  timerActive : Bool
  deriving DecidableEq, Repr

/-- State before any event: nothing initialised, no timer. -/
def dlInit : DlState := ⟨none, none, false, false⟩

/-- Denotation of `torrent.files.forEach((file, i) => progressFiles[i] =
file.progress)` (source lines 166-168) on a hole-free JS array: indices
`0 .. files.length - 1` are overwritten (extending the array if it was
shorter), later entries are kept. -/
def writeProgress (pf : List ℚ) (files : List FileView) : List ℚ :=
  files.map (fun f => f.progress) ++ pf.drop files.length

/-- `onDownload` (source lines 158-177): lazily initialise `progressFiles`
to zeros if still undefined, refresh it from the per-file counters, and
emit the `download` event with the aggregate counters. -/
def onDownloadPF (pf : Option (List ℚ)) (view : TorrentView) : List ℚ :=
  writeProgress (pf.getD (List.replicate view.files.length 0)) view.files

/-- The `fileDownloadComplete` notifications produced by the `getBlobURL`
callbacks registered in the `ready` handler (source lines 190-203), for
files from index `i` on: an error or an undefined url is only
debug-logged; a blob URL yields the notification with the file's index. -/
def blobOutputsFrom : Nat → List BlobResult → List DlOutput
  | _, [] => []
  | i, BlobResult.failure _ :: bs => blobOutputsFrom (i + 1) bs
  | i, BlobResult.undefinedUrl :: bs => blobOutputsFrom (i + 1) bs
  | i, BlobResult.ok url :: bs =>
      DlOutput.fileDownloadComplete i url :: blobOutputsFrom (i + 1) bs

/-- All `fileDownloadComplete` notifications of a `ready` handler run. -/
def blobOutputs (bs : List BlobResult) : List DlOutput := blobOutputsFrom 0 bs

/-- One step of the downloading session: dispatch one event to the handler
`addTorrent` registered for it (none, for a torrent `error`), returning the
new closure state and the notifications emitted in program order.
- `added`: the `client.add` callback emits `downloading` (line 152).
- `metadata`: zero-fill `progressFiles` and record the file names
  (lines 179-185); nothing is emitted.
- `ready`: register `done`, start the interval, and let the `getBlobURL`
  callbacks fire (lines 187-227).
- `tick`: if the interval is active, `sendProgress()` (reading the
  captured `progressFiles` before it is refreshed) then `onDownload()`
  (lines 214-217).
- `done`: only registered once `ready` ran; emits `downloadComplete` on
  the socket and locally, clears the interval, then one forced
  `onDownload()` and `sendProgress()` (lines 219-226).
- `torrentError`: `addTorrent` never calls `setTorrentErrorHandlers`, so
  no handler runs: no state change, nothing emitted, the interval stays. -/
def addTorrentStep (s : DlState) : DlEvent → DlState × List DlOutput
  | DlEvent.added => (s, [DlOutput.downloading])
  | DlEvent.metadata view =>
      ({ s with progressFiles := some (List.replicate view.files.length 0),
                fileNames := some (view.files.map (fun f => f.name)) }, [])
  | DlEvent.ready _ blobs =>
      ({ s with readyFired := true, timerActive := true }, blobOutputs blobs)
  | DlEvent.tick view =>
      if s.timerActive then
        ({ s with progressFiles := some (onDownloadPF s.progressFiles view) },
          [DlOutput.sockProgressUpdate ⟨view.progress, s.progressFiles, view.timeRemaining⟩,
           DlOutput.download ⟨view.downloadSpeed, view.downloaded, view.progress,
             onDownloadPF s.progressFiles view, view.timeRemaining⟩])
      else (s, [])
  | DlEvent.done view =>
      if s.readyFired then
        ({ s with progressFiles := some (onDownloadPF s.progressFiles view),
                  timerActive := false },
          [DlOutput.sockDownloadComplete, DlOutput.downloadComplete,
           DlOutput.download ⟨view.downloadSpeed, view.downloaded, view.progress,
             onDownloadPF s.progressFiles view, view.timeRemaining⟩,
           DlOutput.sockProgressUpdate ⟨view.progress,
             some (onDownloadPF s.progressFiles view), view.timeRemaining⟩])
      else (s, [])
  | DlEvent.torrentError _ => (s, [])

/-- Run a downloading session over a list of events, concatenating the
notifications in order. -/
def addTorrentRun : DlState → List DlEvent → DlState × List DlOutput
  | s, [] => (s, [])
  | s, e :: es =>
      let r := addTorrentStep s e
      let r2 := addTorrentRun r.1 es
      (r2.1, r.2 ++ r2.2)

/-- A Progress Snapshot published to the local observer (`download`). -/
def isLocalSnapshot : DlOutput → Bool
  | DlOutput.download _ => true
  | _ => false

/-- A Progress Snapshot published over the signaling link
(`progressUpdate` socket message). -/
def isLinkSnapshot : DlOutput → Bool
  | DlOutput.sockProgressUpdate _ => true
  | _ => false

/-- An `error` notification. -/
def isErrorOut : DlOutput → Bool
  | DlOutput.error _ => true
  | _ => false

/-- A handle-destroyed / terminal notification (`torrentDestroyed` or
`clientDestroyed`). -/
def isTerminalOut : DlOutput → Bool
  | DlOutput.torrentDestroyed => true
  | DlOutput.clientDestroyed => true
  | _ => false

theorem writeProgress_getElem?_lt (pf : List ℚ) (files : List FileView) (i : Nat)
    (h : i < files.length) :
    (writeProgress pf files)[i]? = (files[i]?).map (fun f => f.progress) := by
  unfold writeProgress
  rw [List.getElem?_append_left (by simpa using h), List.getElem?_map]

theorem onDownloadPF_getElem? (pf : Option (List ℚ)) (view : TorrentView) (i : Nat)
    (h : i < view.files.length) :
    (onDownloadPF pf view)[i]? = (view.files[i]?).map (fun f => f.progress) :=
  writeProgress_getElem?_lt _ _ _ h

/-- C1: when `done` fires in an active download session, the handler stops
the sampling interval and then publishes exactly one forced snapshot — one
`download` event to the local observer and one `progressUpdate` message on
the socket, carrying the same freshly refreshed data — whose overall
fraction is the handle's terminal `torrent.progress` (exactly 1) and whose
per-file fraction is exactly 1 for every selected file; with the timer
cleared, no later interval tick publishes anything more.  The hypotheses
`hprog` and `hsel` are the swarm handle's `done` contract: when `done`
fires all selected files are complete. -/
theorem addTorrent_done_final_snapshot (s : DlState) (view : TorrentView)
    (hready : s.readyFired = true)
    (hprog : view.progress = 1)
    (hsel : ∀ f ∈ view.files, f.selected = true → f.progress = 1) :
    ((addTorrentStep s (DlEvent.done view)).1.timerActive = false) ∧
      ((addTorrentStep s (DlEvent.done view)).2.countP isLocalSnapshot = 1) ∧
      ((addTorrentStep s (DlEvent.done view)).2.countP isLinkSnapshot = 1) ∧
      (∀ info, DlOutput.download info ∈ (addTorrentStep s (DlEvent.done view)).2 →
        info.progress = 1 ∧
          ∀ (i : Nat) (f : FileView), view.files[i]? = some f → f.selected = true →
            info.progressFiles[i]? = some 1) ∧
      (∀ msg, DlOutput.sockProgressUpdate msg ∈ (addTorrentStep s (DlEvent.done view)).2 →
        msg.progress = 1 ∧
          ∀ (i : Nat) (f : FileView), view.files[i]? = some f → f.selected = true →
            ∃ pf, msg.progressFiles = some pf ∧ pf[i]? = some 1) ∧
      (∀ v, (addTorrentStep (addTorrentStep s (DlEvent.done view)).1 (DlEvent.tick v)).2 = []) := by
  have hpf : ∀ (i : Nat) (f : FileView), view.files[i]? = some f → f.selected = true →
      (onDownloadPF s.progressFiles view)[i]? = some (1 : ℚ) := by
    intro i f hif hsf
    have hi : i < view.files.length := by
      rcases List.getElem?_eq_some_iff.1 hif with ⟨hlt, _⟩
      exact hlt
    rw [onDownloadPF_getElem? _ _ _ hi, hif]
    simp [hsel f (List.getElem?_mem hif) hsf]
  refine ⟨?_, ?_, ?_, ?_, ?_, ?_⟩
  · simp [addTorrentStep, hready]
  · simp [addTorrentStep, hready, isLocalSnapshot, List.countP_cons, List.countP_nil]
  · simp [addTorrentStep, hready, isLinkSnapshot, List.countP_cons, List.countP_nil]
  · intro info hmem
    simp only [addTorrentStep, hready, if_true, List.mem_cons, List.mem_singleton,
      List.not_mem_nil, or_false] at hmem
    rcases hmem with h | h | h | h
    all_goals first
      | (rcases DlOutput.download.inj h with hinfo
         subst hinfo
         exact ⟨hprog, hpf⟩)
      | (cases h)
  · intro msg hmem
    simp only [addTorrentStep, hready, if_true, List.mem_cons, List.mem_singleton,
      List.not_mem_nil, or_false] at hmem
    rcases hmem with h | h | h | h
    all_goals first
      | (rcases DlOutput.sockProgressUpdate.inj h with hmsg
         subst hmsg
         exact ⟨hprog, fun i f hif hsf => ⟨_, rfl, hpf i f hif hsf⟩⟩)
      | (cases h)
  · intro v
    have hstate : (addTorrentStep s (DlEvent.done view)).1 =
        { s with progressFiles := some (onDownloadPF s.progressFiles view),
                 timerActive := false } := by
      simp [addTorrentStep, hready]
    rw [hstate]
    simp [addTorrentStep]

/-- Concrete session (one selected, finished file) for exercising C1. -/
def c1State : DlState := ⟨some ["a.txt"], some [0], true, true⟩

/-- Torrent counters at `done` time for the C1 witness. -/
def c1View : TorrentView := ⟨1, 3, 10, 0, [⟨"a.txt", 1, true⟩]⟩

theorem addTorrent_done_final_snapshot_witness :
    (c1State.readyFired = true ∧ c1View.progress = 1 ∧
        ∀ f ∈ c1View.files, f.selected = true → f.progress = 1) ∧
      (((addTorrentStep c1State (DlEvent.done c1View)).1.timerActive = false) ∧
        ((addTorrentStep c1State (DlEvent.done c1View)).2.countP isLocalSnapshot = 1) ∧
        ((addTorrentStep c1State (DlEvent.done c1View)).2.countP isLinkSnapshot = 1) ∧
        (∀ info, DlOutput.download info ∈ (addTorrentStep c1State (DlEvent.done c1View)).2 →
          info.progress = 1 ∧
            ∀ (i : Nat) (f : FileView), c1View.files[i]? = some f → f.selected = true →
              info.progressFiles[i]? = some 1) ∧
        (∀ msg, DlOutput.sockProgressUpdate msg ∈
              (addTorrentStep c1State (DlEvent.done c1View)).2 →
          msg.progress = 1 ∧
            ∀ (i : Nat) (f : FileView), c1View.files[i]? = some f → f.selected = true →
              ∃ pf, msg.progressFiles = some pf ∧ pf[i]? = some 1) ∧
        (∀ v, (addTorrentStep (addTorrentStep c1State (DlEvent.done c1View)).1
            (DlEvent.tick v)).2 = [])) :=
  ⟨⟨rfl, rfl, by decide⟩,
    addTorrent_done_final_snapshot c1State c1View rfl rfl (by decide)⟩

/-- Torrent counters for the C2 failing trace. -/
def c2View : TorrentView := ⟨0, 0, 0, 2000, [⟨"a.txt", 0, true⟩]⟩

/-- C2 fails on the code: `addTorrent` never calls
`setTorrentErrorHandlers`, so in a downloading session a fatal torrent
`error` triggers no handler of this class — no `error` notification, no
`torrentDestroyed` notification — and the sampling interval is not
cleared, so the very next tick still publishes a Progress Snapshot (both
the `download` event and the outbound `progressUpdate` message) after the
error.  Evaluated on the concrete trace added → metadata → ready →
error → tick. -/
theorem addTorrent_error_unhandled_snapshot_after :
    ((addTorrentRun dlInit
        [DlEvent.added, DlEvent.metadata c2View, DlEvent.ready c2View [],
         DlEvent.torrentError "fatal"]).2.countP isErrorOut = 0) ∧
      ((addTorrentRun dlInit
        [DlEvent.added, DlEvent.metadata c2View, DlEvent.ready c2View [],
         DlEvent.torrentError "fatal"]).2.countP isTerminalOut = 0) ∧
      ((addTorrentRun dlInit
        [DlEvent.added, DlEvent.metadata c2View, DlEvent.ready c2View [],
         DlEvent.torrentError "fatal"]).1.timerActive = true) ∧
      ((addTorrentRun dlInit
        [DlEvent.added, DlEvent.metadata c2View, DlEvent.ready c2View [],
         DlEvent.torrentError "fatal"]).2.countP isLinkSnapshot = 0) ∧
      ((addTorrentRun dlInit
        [DlEvent.added, DlEvent.metadata c2View, DlEvent.ready c2View [],
         DlEvent.torrentError "fatal", DlEvent.tick c2View]).2.countP isLinkSnapshot = 1) ∧
      ((addTorrentRun dlInit
        [DlEvent.added, DlEvent.metadata c2View, DlEvent.ready c2View [],
         DlEvent.torrentError "fatal", DlEvent.tick c2View]).2.countP isLocalSnapshot = 1) := by
  decide

theorem blobOutputsFrom_shape (bs : List BlobResult) (i : Nat) (o : DlOutput)
    (ho : o ∈ blobOutputsFrom i bs) :
    ∃ j url, o = DlOutput.fileDownloadComplete j url := by
  induction bs generalizing i with
  | nil => simp [blobOutputsFrom] at ho
  | cons b bs ih =>
    cases b with
    | failure e => exact ih (i + 1) ho
    | undefinedUrl => exact ih (i + 1) ho
    | ok u =>
      rcases List.mem_cons.1 ho with h | h
      · exact ⟨i, u, h⟩
      · exact ih (i + 1) h

theorem blobOutputsFrom_mem (bs : List BlobResult) (i j : Nat) (url : String) :
    DlOutput.fileDownloadComplete j url ∈ blobOutputsFrom i bs ↔
      ∃ k, j = i + k ∧ bs[k]? = some (BlobResult.ok url) := by
  induction bs generalizing i with
  | nil => simp [blobOutputsFrom]
  | cons b bs ih =>
    cases b with
    | failure e =>
      simp only [blobOutputsFrom]
      rw [ih (i + 1)]
      constructor
      · rintro ⟨k, hjk, hk⟩
        exact ⟨k + 1, by omega, by simpa using hk⟩
      · rintro ⟨k, hjk, hk⟩
        cases k with
        | zero => simp at hk
        | succ k => exact ⟨k, by omega, by simpa using hk⟩
    | undefinedUrl =>
      simp only [blobOutputsFrom]
      rw [ih (i + 1)]
      constructor
      · rintro ⟨k, hjk, hk⟩
        exact ⟨k + 1, by omega, by simpa using hk⟩
      · rintro ⟨k, hjk, hk⟩
        cases k with
        | zero => simp at hk
        | succ k => exact ⟨k, by omega, by simpa using hk⟩
    | ok u =>
      simp only [blobOutputsFrom, List.mem_cons]
      rw [ih (i + 1)]
      constructor
      · rintro (heq | ⟨k, hjk, hk⟩)
        · injection heq with h1 h2
          exact ⟨0, by omega, by simp [h2]⟩
        · exact ⟨k + 1, by omega, by simpa using hk⟩
      · rintro ⟨k, hjk, hk⟩
        cases k with
        | zero =>
          simp only [List.getElem?_cons_zero, Option.some_inj] at hk
          injection hk with hu
          left
          simp [hu]
          omega
        | succ k =>
          right
          exact ⟨k, by omega, by simpa using hk⟩

theorem blobOutputs_mem (bs : List BlobResult) (j : Nat) (url : String) :
    DlOutput.fileDownloadComplete j url ∈ blobOutputs bs ↔
      bs[j]? = some (BlobResult.ok url) := by
  unfold blobOutputs
  rw [blobOutputsFrom_mem]
  constructor
  · rintro ⟨k, hjk, hk⟩
    have hkj : k = j := by omega
    rwa [hkj] at hk
  · intro h
    exact ⟨j, by omega, h⟩

/-- C9: per-file `getBlobURL` failures are only logged.  The session state
after `ready` does not depend on the per-file results at all, no `error`
notification is ever emitted by them, every file whose materialization
yields a blob URL still gets its `fileDownloadComplete` notification with
its index and url, and a file whose callback reports an error or an
undefined url gets no notification. -/
theorem getBlobURL_failure_isolated (s : DlState) (view : TorrentView)
    (blobs : List BlobResult) :
    ((addTorrentStep s (DlEvent.ready view blobs)).1 =
        { s with readyFired := true, timerActive := true }) ∧
      (∀ m, DlOutput.error m ∉ (addTorrentStep s (DlEvent.ready view blobs)).2) ∧
      (∀ i url, blobs[i]? = some (BlobResult.ok url) →
        DlOutput.fileDownloadComplete i url ∈ (addTorrentStep s (DlEvent.ready view blobs)).2) ∧
      (∀ i err url, blobs[i]? = some (BlobResult.failure err) →
        DlOutput.fileDownloadComplete i url ∉ (addTorrentStep s (DlEvent.ready view blobs)).2) ∧
      (∀ i url, blobs[i]? = some BlobResult.undefinedUrl →
        DlOutput.fileDownloadComplete i url ∉ (addTorrentStep s (DlEvent.ready view blobs)).2) := by
  have hstep : (addTorrentStep s (DlEvent.ready view blobs)).2 = blobOutputs blobs := rfl
  refine ⟨rfl, ?_, ?_, ?_, ?_⟩
  · intro m hm
    rw [hstep] at hm
    rcases blobOutputsFrom_shape blobs 0 _ hm with ⟨j, u, h⟩
    cases h
  · intro i url h
    rw [hstep, blobOutputs_mem]
    exact h
  · intro i err url h hmem
    rw [hstep, blobOutputs_mem, h] at hmem
    cases hmem
  · intro i url h hmem
    rw [hstep, blobOutputs_mem, h] at hmem
    cases hmem

/-- Per-file materialization results for the C9 witness: file 0 fails,
file 1 succeeds, file 2 yields an undefined url. -/
def c9Blobs : List BlobResult :=
  [BlobResult.failure "boom", BlobResult.ok "blob:u", BlobResult.undefinedUrl]

/-- Torrent counters at `ready` time for the C9 witness. -/
def c9View : TorrentView :=
  ⟨0, 0, 0, 5000, [⟨"a.txt", 0, true⟩, ⟨"b.bin", 0, true⟩, ⟨"c.dat", 0, true⟩]⟩

theorem getBlobURL_failure_isolated_witness :
    (c9Blobs[1]? = some (BlobResult.ok "blob:u") ∧
        c9Blobs[0]? = some (BlobResult.failure "boom") ∧
        c9Blobs[2]? = some BlobResult.undefinedUrl) ∧
      (DlOutput.fileDownloadComplete 1 "blob:u" ∈
          (addTorrentStep dlInit (DlEvent.ready c9View c9Blobs)).2 ∧
        DlOutput.fileDownloadComplete 0 "blob:u" ∉
          (addTorrentStep dlInit (DlEvent.ready c9View c9Blobs)).2 ∧
        DlOutput.fileDownloadComplete 2 "blob:u" ∉
          (addTorrentStep dlInit (DlEvent.ready c9View c9Blobs)).2 ∧
        (addTorrentStep dlInit (DlEvent.ready c9View c9Blobs)).1 =
          { dlInit with readyFired := true, timerActive := true }) :=
  ⟨⟨rfl, rfl, rfl⟩,
    ⟨(getBlobURL_failure_isolated dlInit c9View c9Blobs).2.2.1 1 "blob:u" rfl,
      (getBlobURL_failure_isolated dlInit c9View c9Blobs).2.2.2.1 0 "boom" "blob:u" rfl,
      (getBlobURL_failure_isolated dlInit c9View c9Blobs).2.2.2.2 2 "blob:u" rfl,
      (getBlobURL_failure_isolated dlInit c9View c9Blobs).1⟩⟩

/-! ## The client object (`constructor`, `addTorrent`/`sendFiles` entry,
`destroy`, source lines 53-93, 95-120, 150-153, 230-234) -/

/-- The client-level state the methods touch: whether the underlying
WebTorrent instance has been destroyed, the list of active torrents
(`this.client.torrents`, identified by magnet URI / seeded content), and
the downloading-session closure state. -/
structure Client where
  clientDestroyed : Bool
  torrents : List String
  session : DlState
  deriving DecidableEq, Repr

/-- The session-start effect of the `addTorrent` method (source lines
150-153): `this.client.add(magnetURI, ...)` is called unconditionally —
there is no check of `this.client.torrents`, no rejection, and no destroy
of an existing torrent — so the new torrent is appended to the client's
torrent list.  Nothing is emitted at call time (the `downloading` event
fires later from the add callback). -/
def Client.addTorrent (c : Client) (magnetURI : String) : Client × List DlOutput :=
  ({ c with torrents := c.torrents ++ [magnetURI] }, [])

/-- The session-start effect of the `sendFiles` method (source lines
95-120): `this.client.seed(files, ...)` is likewise unconditional. -/
def Client.sendFiles (c : Client) (files : String) : Client × List DlOutput :=
  ({ c with torrents := c.torrents ++ [files] }, [])

/-- The `destroy` method (source lines 230-234): it calls
`this.client.destroy()` — destroying the WebTorrent instance — and returns
null.  It emits nothing, and it does not touch `downloadInfoInterval`:
the sampling interval, if active, is left running. -/
def Client.destroy (c : Client) : Client × List DlOutput :=
  ({ c with clientDestroyed := true }, [])

/-- `destroy` called `n` times in a row, collecting every notification. -/
def destroyN : Nat → Client → Client × List DlOutput
  | 0, c => (c, [])
  | n + 1, c =>
      let r := Client.destroy c
      let r2 := destroyN n r.1
      (r2.1, r.2 ++ r2.2)

/-- A mid-transfer client for the C3 counterexample: one active torrent,
the sampling interval running. -/
def c3Client : Client :=
  ⟨false, ["magnet:x"], ⟨some ["a.txt"], some [0], true, true⟩⟩

/-- C3 as stated is false at a concrete input: calling `destroy` once on a
client in the Transferring state produces zero notifications (in
particular not exactly one terminal notification) and leaves the sampling
interval active — `destroy` never calls `clearInterval` and never emits. -/
theorem destroy_counterexample :
    ¬ ((Client.destroy c3Client).2.countP isTerminalOut = 1 ∧
        (Client.destroy c3Client).1.session.timerActive = false) := by
  decide

theorem destroyN_spec (n : Nat) (c : Client) :
    (destroyN n c).2 = [] ∧
      (destroyN n c).1 = if n = 0 then c else { c with clientDestroyed := true } := by
  induction n generalizing c with
  | zero => exact ⟨rfl, rfl⟩
  | succ n ih =>
    rcases ih { c with clientDestroyed := true } with ⟨hout, hst⟩
    refine ⟨?_, ?_⟩
    · simp [destroyN, Client.destroy, hout]
    · simp only [destroyN, Client.destroy, hst]
      cases n <;> rfl

/-- C3 amended: calling `destroy` `n ≥ 1` times from any client state does
release the swarm client (the WebTorrent instance is destroyed, and
repeating the call changes nothing further), but it emits zero
`sessionDestroyed`/terminal notifications — not one — and it leaves the
downloading session's state, including an active sampling interval,
untouched. -/
theorem destroyN_releases_no_notification (n : Nat) (c : Client) (h : 1 ≤ n) :
    (destroyN n c).2 = [] ∧
      (destroyN n c).1 = { c with clientDestroyed := true } ∧
      (destroyN n c).1.session.timerActive = c.session.timerActive := by
  rcases destroyN_spec n c with ⟨hout, hst⟩
  rw [if_neg (by omega)] at hst
  exact ⟨hout, hst, by rw [hst]⟩

theorem destroyN_releases_no_notification_witness :
    (1 ≤ 2) ∧
      ((destroyN 2 c3Client).2 = [] ∧
        (destroyN 2 c3Client).1 = { c3Client with clientDestroyed := true } ∧
        (destroyN 2 c3Client).1.session.timerActive = c3Client.session.timerActive) :=
  ⟨by decide, destroyN_releases_no_notification 2 c3Client (by decide)⟩

/-- C4 as stated is false at a concrete input: with one session already
active, a second `addTorrent` is neither rejected with an error nor does
it destroy the existing session — afterwards both torrents are active
concurrently. -/
theorem second_session_counterexample :
    ((Client.addTorrent ⟨false, ["magnet:first"], dlInit⟩ "magnet:second").1.torrents =
        ["magnet:first", "magnet:second"]) ∧
      ((Client.addTorrent ⟨false, ["magnet:first"], dlInit⟩ "magnet:second").2.countP
          isErrorOut = 0) := by
  decide

/-- C4 amended: the coordinator does not enforce the single-session
invariant; it only assumes it (`selectFiles` reads `torrents[0]`).  A
second session-start while a session is active — by `addTorrent` or by
`sendFiles` — appends a second concurrently active torrent: every
previously active torrent is still active, the torrent count grows by one,
and no error notification is emitted. -/
theorem second_session_appends (c : Client) (m : String) (h : c.torrents ≠ []) :
    ((Client.addTorrent c m).1.torrents.length = c.torrents.length + 1 ∧
        (∀ t ∈ c.torrents, t ∈ (Client.addTorrent c m).1.torrents) ∧
        (Client.addTorrent c m).2.countP isErrorOut = 0) ∧
      ((Client.sendFiles c m).1.torrents.length = c.torrents.length + 1 ∧
        (∀ t ∈ c.torrents, t ∈ (Client.sendFiles c m).1.torrents) ∧
        (Client.sendFiles c m).2.countP isErrorOut = 0) := by
  refine ⟨⟨?_, ?_, rfl⟩, ⟨?_, ?_, rfl⟩⟩ <;>
    simp [Client.addTorrent, Client.sendFiles] <;>
    exact fun t ht => Or.inl ht

theorem second_session_appends_witness :
    ((["magnet:first"] : List String) ≠ []) ∧
      (((Client.addTorrent ⟨false, ["magnet:first"], dlInit⟩ "magnet:second").1.torrents.length =
            (["magnet:first"] : List String).length + 1 ∧
          (∀ t ∈ (["magnet:first"] : List String),
            t ∈ (Client.addTorrent ⟨false, ["magnet:first"], dlInit⟩ "magnet:second").1.torrents) ∧
          (Client.addTorrent ⟨false, ["magnet:first"], dlInit⟩ "magnet:second").2.countP
            isErrorOut = 0) ∧
        (((Client.sendFiles ⟨false, ["magnet:first"], dlInit⟩ "magnet:second").1.torrents.length =
            (["magnet:first"] : List String).length + 1) ∧
          (∀ t ∈ (["magnet:first"] : List String),
            t ∈ (Client.sendFiles ⟨false, ["magnet:first"], dlInit⟩ "magnet:second").1.torrents) ∧
          (Client.sendFiles ⟨false, ["magnet:first"], dlInit⟩ "magnet:second").2.countP
            isErrorOut = 0)) :=
  ⟨by decide,
    second_session_appends ⟨false, ["magnet:first"], dlInit⟩ "magnet:second" (by decide)⟩

/-! ## The seeding session (`sendFiles`, source lines 95-120, and
`setTorrentErrorHandlers`, source lines 243-255)

The relayed `progressUpdate` payload is `info: any` in the source, so the
seeding machine is polymorphic in it: the handler cannot inspect it. -/

/-- State of a seeding session: whether its torrent has been destroyed. -/
structure SeedState where
  torrentDestroyed : Bool
  deriving DecidableEq, Repr

/-- An event delivered to the seeding session's handlers: an inbound
`progressUpdate` socket message (payload type `α`), a torrent `upload`
event (with the handle's counters), an inbound `torrentDone` socket
message, and — via `setTorrentErrorHandlers`, which `sendFiles` does
install — a fatal torrent `error` or a `warning`. -/
inductive SeedEvent (α : Type) where
  | sockProgressUpdate (info : α)
  | upload (uploadSpeed uploaded : Nat)
  | sockTorrentDone
  | torrentError (msg : String)
  | torrentWarning (msg : String)

/-- A notification emitted during a seeding session. -/
inductive SeedOutput (α : Type) where
  | progressUpdate (info : α)
  | upload (uploadSpeed uploaded : Nat)
  | torrentDestroyed
  | error (msg : String)
  deriving DecidableEq, Repr

/-- One step of the seeding session (handlers registered in the `seed`
callback, source lines 96-119, and in `setTorrentErrorHandlers`):
an inbound `progressUpdate` is re-emitted verbatim to the local observer
(lines 102-104); `upload` re-emits the counters; `torrentDone` destroys
the torrent and emits `torrentDestroyed`; a torrent `error` emits `error`
then `torrentDestroyed`; a `warning` is only debug-logged. -/
def sendFilesStep {α : Type} (s : SeedState) : SeedEvent α → SeedState × List (SeedOutput α)
  | SeedEvent.sockProgressUpdate info => (s, [SeedOutput.progressUpdate info])
  | SeedEvent.upload speed up => (s, [SeedOutput.upload speed up])
  | SeedEvent.sockTorrentDone => (⟨true⟩, [SeedOutput.torrentDestroyed])
  | SeedEvent.torrentError m => (s, [SeedOutput.error m, SeedOutput.torrentDestroyed])
  | SeedEvent.torrentWarning _ => (s, [])

/-- C8: in the sender role, every `progressUpdate` message received over
the socket produces exactly one local `progressUpdate` notification whose
payload is the received message itself, verbatim (the handler is
parametric in the payload type, so it cannot alter it), and nothing else:
no other notification and no state change. -/
theorem sendFiles_progress_relay_verbatim (α : Type) (s : SeedState) (info : α) :
    sendFilesStep s (SeedEvent.sockProgressUpdate info) =
      (s, [SeedOutput.progressUpdate info]) :=
  rfl

end Sendata
